import Mathlib

/-!
Shallow embedding of the NASCQUIZ quiz-state engine.

The repository has two near-identical variants, `nascar_quiz.py` and
`nascar_quiz-SABA51.py`; the latter is a superset (it adds the category
filter and a `category` field on answer records). The definitions below
embed the SABA51 variant; everywhere the two variants overlap their code
is textually identical, so every theorem about the shared behaviour reads
the same for both files.

Python specifics captured by the model:
  - dict fields that the code reads with `q.get(key, default)` become
    `Option` fields, read with `Option.getD`;
  - `str.lower()` becomes `pyLower`;
  - Streamlit's `st.session_state` becomes the explicit `QuizState`
    record, threaded through each operation;
  - a Python function that can raise returns the (possibly mutated)
    state paired with `Option PyError`; the exception propagates with
    whatever mutations happened before the raise (for `submit_answer`
    the indexing on the first line raises before any mutation);
  - `random.sample(population, k)`'s choice is modelled by an explicit
    list `draw` of positions into the population; `random.sample` always
    picks `k` pairwise-distinct in-range positions, which theorems state
    as the `ValidSample` hypothesis;
  - `st.error`/`st.warning` calls are pure presentation except where a
    claim is about an error being surfaced (`load_questions_from_json`),
    where the surfaced error becomes an `Option LoadError` component.
-/

namespace NascQuiz

/-- Python `str.lower()`. (The bank's labels are ASCII; `Char.toLower`
lowercases exactly the ASCII range. Defined over the character list so
that concrete instances evaluate inside the kernel.) -/
def pyLower (s : String) : String :=
  ⟨s.data.map Char.toLower⟩

/-- One question record from `questions.json`: fields `question`, `options`,
`correct`, `explanation` are always read with `[...]` in the source (trusted
present); `difficulty` and `category` are read with `.get` (optional). -/
structure Question where
  question : String
  options : List String
  correct : Int
  explanation : String
  difficulty : Option String
  category : Option String
deriving DecidableEq

/-- The dict appended to `st.session_state.answers` by `submit_answer`
(SABA51 variant; the other variant omits `category`). -/
structure AnswerRecord where
  question : String
  selected : Int
  correct : Int
  is_correct : Bool
  explanation : String
  difficulty : String
  category : String
deriving DecidableEq

/-- The quiz-relevant fields of `st.session_state`. -/
structure QuizState where
  quiz_started : Bool
  current_question : Nat
  score : Nat
  answers : List AnswerRecord
  quiz_questions : List Question
  all_questions : List Question
  selected_difficulty : String
  selected_category : String
deriving DecidableEq

/-- The one uncaught exception the engine can raise: Python `IndexError`
from `quiz_questions[current_question]` in `submit_answer`. -/
inductive PyError
  | indexError
deriving DecidableEq

/-- `filter_questions_by_difficulty(questions, difficulty_level)`:
identity on `'mixed'`, else keeps questions with
`q.get('difficulty', '').lower() == difficulty_level.lower()`. -/
def filter_questions_by_difficulty (questions : List Question)
    (difficulty_level : String) : List Question :=
  if difficulty_level == "mixed" then questions
  else questions.filter fun q =>
    pyLower (q.difficulty.getD "") == pyLower difficulty_level

/-- `filter_questions_by_category(questions, category)`: identity on
`'all'`, else keeps questions with
`q.get('category', '').lower() == category.lower()`. -/
def filter_questions_by_category (questions : List Question)
    (category : String) : List Question :=
  if category == "all" then questions
  else questions.filter fun q =>
    pyLower (q.category.getD "") == pyLower category

/-- `get_available_categories()`: collects `q.get('category', 'Unknown')`
for each question into a set, skipping falsy (empty-string) labels. The
source sorts the set for display; only membership matters to the claims,
so the set is modelled as the dedup of the label list. -/
def get_available_categories (all_questions : List Question) : List String :=
  ((all_questions.map fun q => q.category.getD "Unknown").filter
    fun c => c != "").dedup

/-- `get_filtered_question_count(difficulty, category)`: applies the
category filter, then the difficulty filter (both inlined in the source
with the same predicates as the standalone filter functions), and
returns the length. -/
def get_filtered_question_count (all_questions : List Question)
    (difficulty category : String) : Nat :=
  let qs1 := if category != "all" then
      all_questions.filter fun q =>
        pyLower (q.category.getD "") == pyLower category
    else all_questions
  let qs2 := if difficulty != "mixed" then
      qs1.filter fun q =>
        pyLower (q.difficulty.getD "") == pyLower difficulty
    else qs1
  qs2.length

/-- `difficulty_weights.get(d, 2)` for the dict
`{'easy': 1, 'medium': 2, 'hard': 3}`. -/
def difficulty_weights (d : String) : Nat :=
  if d == "easy" then 1 else if d == "medium" then 2
  else if d == "hard" then 3 else 2

/-- The weight `calculate_difficulty_score` assigns to a question:
`difficulty_weights.get(question.get('difficulty', 'medium').lower(), 2)`. -/
def questionWeight (q : Question) : Nat :=
  difficulty_weights (pyLower (q.difficulty.getD "medium"))

/-- The `for i, answer in enumerate(answers)` loop body of
`calculate_difficulty_score`: `quiz_questions[i]` raises (result `none`)
when the log is longer than the question list. -/
def calcScoreGo (quiz_questions : List Question) :
    List AnswerRecord → Nat → Nat → Nat → Option (Nat × Nat)
  | [], _, earned, possible => some (earned, possible)
  | a :: rest, i, earned, possible =>
    match quiz_questions[i]? with
    | none => none
    | some q =>
      calcScoreGo quiz_questions rest (i + 1)
        (if a.is_correct then earned + questionWeight q else earned)
        (possible + questionWeight q)

/-- `calculate_difficulty_score(answers)`: returns
`(total_weighted_score, max_possible_score)`. -/
def calculate_difficulty_score (quiz_questions : List Question)
    (answers : List AnswerRecord) : Option (Nat × Nat) :=
  calcScoreGo quiz_questions answers 0 0 0

/-- The list `random.sample(population, k)` returns, given the positions
`idxs` it picked (out-of-range positions contribute nothing; `ValidSample`
rules them out). -/
def sampleAt (population : List Question) (idxs : List Nat) : List Question :=
  idxs.filterMap fun i => population[i]?

/-- What `random.sample(population, k)` guarantees about its picked
positions: `k` pairwise-distinct in-range positions. -/
def ValidSample (population : List Question) (k : Nat) (idxs : List Nat) : Prop :=
  idxs.Nodup ∧ idxs.length = k ∧ ∀ i ∈ idxs, i < population.length

instance (population : List Question) (k : Nat) (idxs : List Nat) :
    Decidable (ValidSample population k idxs) := by
  unfold ValidSample; infer_instance

/-- `start_quiz(difficulty_level, category)`: fails (returns `False`,
mutating nothing) when the bank is empty or no question matches; otherwise
resets the session fields and stores `random.sample(available, min(5,
len(available)))`, whose choice of positions is the `draw` argument.
The source computes `num_questions = min(5, len(available))`; that the
draw has this length is the `ValidSample` hypothesis of the theorems. -/
def start_quiz (s : QuizState) (difficulty_level category : String)
    (draw : List Nat) : QuizState × Bool :=
  if s.all_questions.isEmpty then (s, false)
  else
    let available := filter_questions_by_difficulty
      (filter_questions_by_category s.all_questions category) difficulty_level
    if available.isEmpty then (s, false)
    else
      ({ s with
          quiz_started := true
          current_question := 0
          score := 0
          answers := []
          selected_difficulty := difficulty_level
          selected_category := category
          quiz_questions := sampleAt available draw }, true)

/-- The dict literal `submit_answer` appends to `st.session_state.answers`. -/
def mkAnswerRecord (q : Question) (selected : Int) : AnswerRecord :=
  { question := q.question
    selected := selected
    correct := q.correct
    is_correct := selected == q.correct
    explanation := q.explanation
    difficulty := q.difficulty.getD "medium"
    category := q.category.getD "Unknown" }

/-- `submit_answer(selected_option)`: the first line indexes
`quiz_questions[current_question]`, raising `IndexError` (before any
mutation) when `current_question >= len(quiz_questions)`; otherwise it
bumps the score iff `selected_option == current_q['correct']`, appends the
answer record, and advances `current_question`. No validation of
`selected_option` is performed. -/
def submit_answer (s : QuizState) (selected_option : Int) :
    QuizState × Option PyError :=
  match s.quiz_questions[s.current_question]? with
  | none => (s, some .indexError)
  | some current_q =>
    let r := mkAnswerRecord current_q selected_option
    ({ s with
        score := if r.is_correct then s.score + 1 else s.score
        answers := s.answers ++ [r]
        current_question := s.current_question + 1 }, none)

/-- A sequence of `submit_answer` calls, stopping at the first raise
(the presentation layer reruns only while no exception escaped). -/
def runAnswers (s : QuizState) : List Int → QuizState × Option PyError
  | [] => (s, none)
  | sel :: rest =>
    match submit_answer s sel with
    | (s1, none) => runAnswers s1 rest
    | (s1, some e) => (s1, some e)

/-- `reset_quiz()`. -/
def reset_quiz (s : QuizState) : QuizState :=
  { s with
      quiz_started := false
      current_question := 0
      score := 0
      answers := []
      quiz_questions := [] }

/-- The results screen's per-difficulty breakdown (lines 498-507 of the
SABA51 variant, 350-360 of the other): a dict with exactly the literal
keys `easy`, `medium`, `hard`, each mapped to `[correct, total]`;
an answer is counted under `answer.get('difficulty', 'medium').lower()`
only when that string is one of the dict's keys. Modelled as an
association list to keep the key set observable. -/
def bumpKey (m : List (String × (Nat × Nat))) (d : String) (corr : Bool) :
    List (String × (Nat × Nat)) :=
  m.map fun kv =>
    if kv.1 == d then
      (kv.1, (kv.2.1 + (if corr then 1 else 0), kv.2.2 + 1))
    else kv

def difficulty_breakdown (answers : List AnswerRecord) :
    List (String × (Nat × Nat)) :=
  answers.foldl (fun m a => bumpKey m (pyLower a.difficulty) a.is_correct)
    [("easy", (0, 0)), ("medium", (0, 0)), ("hard", (0, 0))]

/-- The error `load_questions_from_json` surfaces via `st.error`, named
after the spec's `LoadError` taxonomy: `notFound` for the missing-file
branch, `parseError` for the `json.JSONDecodeError` handler, `unknown`
for the catch-all `except Exception` handler. -/
inductive LoadError
  | notFound
  | parseError
  | unknown
deriving DecidableEq

/-- The possible outcomes of opening and parsing the source file, as the
source's control flow distinguishes them: the file may be missing, the
text may fail to parse (`json.JSONDecodeError`), some other exception may
escape (e.g. the document is not a dict, so `.get` raises), or parsing
yields a dict whose optional `questions` key holds a question list. -/
inductive LoadSource
  | missingFile
  | unparsable
  | otherFailure
  | parsed (doc : Option (List Question))

/-- `load_questions_from_json(file_path)`: returns the loaded bank
together with the error surfaced by `st.error`, if any. On a parsed
document the source returns `data.get('questions', [])` with no
`st.error` call. -/
def load_questions_from_json : LoadSource → List Question × Option LoadError
  | .missingFile => ([], some .notFound)
  | .unparsable => ([], some .parseError)
  | .otherFailure => ([], some .unknown)
  | .parsed doc => (doc.getD [], none)

/-! ### Example data used by witnesses and counterexamples -/

/-- A well-formed easy question. -/
def qEasy : Question :=
  ⟨"Who won the 1998 Daytona 500?", ["Earnhardt", "Gordon"], 0,
    "He finally won it.", some "easy", some "history"⟩

/-- A well-formed hard question. -/
def qHard : Question :=
  ⟨"How long is the Talladega lap?", ["2.66", "2.5", "1.5"], 0,
    "Longest oval.", some "hard", some "tracks"⟩

/-- A question whose dict has neither a `difficulty` nor a `category` key. -/
def qNoDiff : Question :=
  ⟨"When was NASCAR founded?", ["1948", "1950"], 0, "Founded in 1948.",
    none, none⟩

/-- The initial `st.session_state` (lines 14-32 of the source). -/
def baseState : QuizState := ⟨false, 0, 0, [], [], [], "mixed", "all"⟩

/-- A session whose position has reached the length of the drawn list. -/
def completeState : QuizState :=
  { baseState with
      quiz_started := true
      current_question := 1
      score := 1
      quiz_questions := [qEasy] }

/-- An in-progress one-question session. -/
def inProgressState : QuizState :=
  { baseState with
      quiz_started := true
      quiz_questions := [qEasy]
      all_questions := [qEasy] }

/-- An in-progress session on a question with no difficulty key. -/
def c7state : QuizState :=
  { baseState with
      quiz_started := true
      quiz_questions := [qNoDiff]
      all_questions := [qNoDiff] }

/-- A bank holding the same question record twice. -/
def dupState : QuizState := { baseState with all_questions := [qEasy, qEasy] }

/-- A two-question bank for the draw-property witness. -/
def w4state : QuizState := { baseState with all_questions := [qEasy, qHard] }

/-- The two-question bank for the session-invariant witness. -/
def w3bank : List Question := [qEasy, qHard]

/-- An idle state holding `w3bank`. -/
def w3start : QuizState := { baseState with all_questions := w3bank }

/-- Questions for the weighted-score witness: one easy, one hard. -/
def w6questions : List Question := [qEasy, qHard]

/-- Log for the weighted-score witness: easy answered correctly, hard
answered incorrectly. -/
def w6answers : List AnswerRecord :=
  [mkAnswerRecord qEasy 0, mkAnswerRecord qHard 2]

/-- The answer log `submit_answer` produces when the questions `qs` are
answered in order with the selections `sels`: exactly the records the
source appends, one per (question, selection) pair. -/
def expectedLog (qs : List Question) (sels : List Int) : List AnswerRecord :=
  (qs.zip sels).map fun p => mkAnswerRecord p.1 p.2

/-! ### Helper lemmas -/

theorem submit_answer_some (s : QuizState) (sel : Int) (q : Question)
    (hq : s.quiz_questions[s.current_question]? = some q) :
    submit_answer s sel =
      ({ s with
          score := if (mkAnswerRecord q sel).is_correct then s.score + 1
            else s.score
          answers := s.answers ++ [mkAnswerRecord q sel]
          current_question := s.current_question + 1 }, none) := by
  unfold submit_answer
  rw [hq]

theorem runAnswers_cons_ok (s : QuizState) (sel : Int) (rest : List Int)
    (q : Question) (hq : s.quiz_questions[s.current_question]? = some q) :
    runAnswers s (sel :: rest) =
      runAnswers ({ s with
          score := if (mkAnswerRecord q sel).is_correct then s.score + 1
            else s.score
          answers := s.answers ++ [mkAnswerRecord q sel]
          current_question := s.current_question + 1 }) rest := by
  show (match submit_answer s sel with
    | (s1, none) => runAnswers s1 rest
    | (s1, some e) => (s1, some e)) = _
  rw [submit_answer_some s sel q hq]

theorem runAnswers_eq (sels : List Int) : ∀ (s : QuizState),
    s.current_question + sels.length ≤ s.quiz_questions.length →
    runAnswers s sels =
      ({ s with
          current_question := s.current_question + sels.length
          score := s.score + List.countP (fun r => r.is_correct)
            (expectedLog (s.quiz_questions.drop s.current_question) sels)
          answers := s.answers ++
            expectedLog (s.quiz_questions.drop s.current_question) sels }, none) := by
  induction sels with
  | nil =>
    intro s h
    simp [runAnswers, expectedLog]
  | cons sel rest ih =>
    intro s h
    have hlt : s.current_question < s.quiz_questions.length := by
      simp at h; omega
    have hget : s.quiz_questions[s.current_question]? =
        some s.quiz_questions[s.current_question] :=
      List.getElem?_eq_getElem hlt
    have hdrop : s.quiz_questions.drop s.current_question =
        s.quiz_questions[s.current_question] ::
          s.quiz_questions.drop (s.current_question + 1) :=
      List.drop_eq_getElem_cons hlt
    rw [runAnswers_cons_ok s sel rest _ hget, ih _ (by simp at h ⊢; omega)]
    simp only [hdrop, expectedLog, List.zip_cons_cons, List.map_cons,
      List.countP_cons, List.append_assoc, List.singleton_append, List.length_cons]
    cases hic : (mkAnswerRecord s.quiz_questions[s.current_question] sel).is_correct <;>
      simp [hic] <;> omega

theorem start_quiz_success (s s0 : QuizState) (d c : String) (draw : List Nat)
    (h : start_quiz s d c draw = (s0, true)) :
    s0.current_question = 0 ∧ s0.score = 0 ∧ s0.answers = [] ∧
    s0.quiz_questions = sampleAt
      (filter_questions_by_difficulty
        (filter_questions_by_category s.all_questions c) d) draw := by
  unfold start_quiz at h
  by_cases h1 : s.all_questions.isEmpty
  · simp [h1] at h
  · by_cases h2 : (filter_questions_by_difficulty
        (filter_questions_by_category s.all_questions c) d).isEmpty
    · simp [h1, h2] at h
    · simp only [h1, h2, if_false, Bool.false_eq_true] at h
      rw [Prod.mk.injEq] at h
      rw [← h.1]
      exact ⟨rfl, rfl, rfl, rfl⟩

theorem calcScoreGo_eq (qs : List Question) (ans : List AnswerRecord) :
    ∀ (i e p : Nat), i + ans.length ≤ qs.length →
    calcScoreGo qs ans i e p =
      some (e + ((((qs.drop i).zip ans).filter fun pa => pa.2.is_correct).map
          fun pa => questionWeight pa.1).sum,
        p + (((qs.drop i).zip ans).map fun pa => questionWeight pa.1).sum) := by
  induction ans with
  | nil =>
    intro i e p h
    simp [calcScoreGo]
  | cons a rest ih =>
    intro i e p h
    have hlt : i < qs.length := by simp at h; omega
    have hget : qs[i]? = some qs[i] := List.getElem?_eq_getElem hlt
    have hdrop : qs.drop i = qs[i] :: qs.drop (i + 1) :=
      List.drop_eq_getElem_cons hlt
    have hstep : calcScoreGo qs (a :: rest) i e p =
        calcScoreGo qs rest (i + 1)
          (if a.is_correct then e + questionWeight qs[i] else e)
          (p + questionWeight qs[i]) := by
      show (match qs[i]? with
        | none => none
        | some q => calcScoreGo qs rest (i + 1)
            (if a.is_correct then e + questionWeight q else e)
            (p + questionWeight q)) = _
      rw [hget]
    rw [hstep, ih (i + 1) _ _ (by simp at h ⊢; omega)]
    simp only [hdrop, List.zip_cons_cons, List.filter_cons, List.map_cons, List.sum_cons]
    cases hic : a.is_correct <;> simp [hic] <;> omega

theorem get_filtered_question_count_eq (all_questions : List Question)
    (difficulty category : String) :
    get_filtered_question_count all_questions difficulty category
      = (filter_questions_by_difficulty
          (filter_questions_by_category all_questions category) difficulty).length := by
  unfold get_filtered_question_count filter_questions_by_category
    filter_questions_by_difficulty
  by_cases hc : category = "all" <;> by_cases hd : difficulty = "mixed" <;>
    simp [hc, hd, List.filter_filter, Bool.and_comm]

theorem get_filtered_question_count_eq_swap (all_questions : List Question)
    (difficulty category : String) :
    get_filtered_question_count all_questions difficulty category
      = (filter_questions_by_category
          (filter_questions_by_difficulty all_questions difficulty) category).length := by
  unfold get_filtered_question_count filter_questions_by_category
    filter_questions_by_difficulty
  by_cases hc : category = "all" <;> by_cases hd : difficulty = "mixed" <;>
    simp [hc, hd, List.filter_filter, Bool.and_comm]

theorem bumpKey_keys (m : List (String × (Nat × Nat))) (d : String) (c : Bool) :
    (bumpKey m d c).map Prod.fst = m.map Prod.fst := by
  unfold bumpKey
  rw [List.map_map]
  refine List.map_congr_left fun kv hkv => ?_
  cases hkd : (kv.1 == d) <;> simp [Function.comp, hkd]

theorem lookup_bumpKey (m : List (String × (Nat × Nat))) (k d : String) (c : Bool) :
    List.lookup k (bumpKey m d c)
      = (List.lookup k m).map fun v =>
          if k = d then (v.1 + (if c then 1 else 0), v.2 + 1) else v := by
  induction m with
  | nil => rfl
  | cons kv rest ih =>
    obtain ⟨key, val⟩ := kv
    have hb : bumpKey ((key, val) :: rest) d c
        = (if key == d then (key, (val.1 + (if c then 1 else 0), val.2 + 1))
            else (key, val)) :: bumpKey rest d c := rfl
    rw [hb]
    cases hkd : (key == d)
    · rw [if_neg Bool.false_ne_true]
      cases hkk : (k == key)
      · simp only [List.lookup_cons, hkk]
        exact ih
      · have h1 : k = key := eq_of_beq hkk
        subst h1
        have h2 : ¬ k = d := fun h => by subst h; simp at hkd
        simp [List.lookup_cons, hkk, h2]
    · rw [if_pos rfl]
      cases hkk : (k == key)
      · simp only [List.lookup_cons, hkk]
        exact ih
      · have h1 : k = key := eq_of_beq hkk
        have h2 : key = d := eq_of_beq hkd
        subst h1
        subst h2
        simp

theorem breakdown_keys_general (ans : List AnswerRecord) :
    ∀ (m : List (String × (Nat × Nat))),
    (ans.foldl (fun m a => bumpKey m (pyLower a.difficulty) a.is_correct) m).map
        Prod.fst = m.map Prod.fst := by
  induction ans with
  | nil => intro m; rfl
  | cons a rest ih =>
    intro m
    rw [List.foldl_cons, ih, bumpKey_keys]

theorem breakdown_lookup_general (k : String) (ans : List AnswerRecord) :
    ∀ (m : List (String × (Nat × Nat))),
    List.lookup k (ans.foldl
        (fun m a => bumpKey m (pyLower a.difficulty) a.is_correct) m)
      = (List.lookup k m).map fun v =>
          (v.1 + List.countP (fun a => a.is_correct && (pyLower a.difficulty == k)) ans,
           v.2 + List.countP (fun a => pyLower a.difficulty == k) ans) := by
  induction ans with
  | nil =>
    intro m
    simp
  | cons a rest ih =>
    intro m
    rw [List.foldl_cons, ih, lookup_bumpKey, Option.map_map]
    rcases hm : List.lookup k m with _ | v
    · rfl
    · simp only [Option.map_some', Function.comp_apply]
      congr 1
      by_cases hk : k = pyLower a.difficulty
      · have hbeq : (pyLower a.difficulty == k) = true := by
          subst hk; exact beq_self_eq_true _
        cases hic : a.is_correct <;>
          simp [hk, hic, hbeq, List.countP_cons] <;> omega
      · have hbeq : (pyLower a.difficulty == k) = false := by
          apply beq_eq_false_iff_ne.mpr
          exact fun h => hk h.symm
        cases hic : a.is_correct <;>
          simp [hk, hic, hbeq, List.countP_cons]

theorem sampleAt_length (pop : List Question) (idxs : List Nat)
    (hbound : ∀ i ∈ idxs, i < pop.length) :
    (sampleAt pop idxs).length = idxs.length := by
  induction idxs with
  | nil => rfl
  | cons i rest ih =>
    have hi : i < pop.length := hbound i (List.mem_cons_self i rest)
    unfold sampleAt at ih ⊢
    rw [List.filterMap_cons, List.getElem?_eq_getElem hi]
    simp only [List.length_cons]
    rw [ih fun j hj => hbound j (List.mem_cons_of_mem i hj)]

theorem sampleAt_mem (pop : List Question) (idxs : List Nat) (q : Question)
    (hq : q ∈ sampleAt pop idxs) : q ∈ pop := by
  obtain ⟨i, hi, hfi⟩ := List.mem_filterMap.mp hq
  exact List.getElem?_mem hfi

theorem sampleAt_nodup (pop : List Question) (idxs : List Nat)
    (hnd : idxs.Nodup) (hpop : pop.Nodup) : (sampleAt pop idxs).Nodup := by
  refine List.Nodup.filterMap ?_ hnd
  intro i j q hqi hqj
  rw [Option.mem_def] at hqi hqj
  obtain ⟨hi, hgi⟩ := List.getElem?_eq_some.mp hqi
  obtain ⟨hj, hgj⟩ := List.getElem?_eq_some.mp hqj
  exact (List.Nodup.getElem_inj_iff hpop).mp (hgi.trans hgj.symm)

theorem sampleAt_range (pop : List Question) :
    sampleAt pop (List.range pop.length) = pop := by
  induction pop with
  | nil => rfl
  | cons x xs ih =>
    unfold sampleAt at ih ⊢
    have hcomp : ((fun i => (x :: xs)[i]?) ∘ Nat.succ) = fun i => xs[i]? := by
      funext i
      simp
    rw [List.length_cons, List.range_succ_eq_map, List.filterMap_cons,
      List.filterMap_map, hcomp, ih]
    simp

theorem sampleAt_perm_of_full (pop : List Question) (idxs : List Nat)
    (hnd : idxs.Nodup) (hlen : idxs.length = pop.length)
    (hbound : ∀ i ∈ idxs, i < pop.length) :
    (sampleAt pop idxs).Perm pop := by
  have hperm : idxs.Perm (List.range pop.length) := by
    apply List.perm_of_nodup_nodup_toFinset_eq hnd (List.nodup_range _)
    apply Finset.eq_of_subset_of_card_le
    · intro i hi
      rw [List.mem_toFinset] at hi
      rw [List.mem_toFinset, List.mem_range]
      exact hbound i hi
    · rw [List.card_toFinset, List.card_toFinset, hnd.dedup,
        (List.nodup_range _).dedup, hlen, List.length_range]
  have h1 : (sampleAt pop idxs).Perm (sampleAt pop (List.range pop.length)) :=
    List.Perm.filterMap _ hperm
  rw [sampleAt_range pop] at h1
  exact h1

/-! ### Claim theorems -/

/-- C1: for every session whose position has reached the length of the
drawn question list, a further `submit_answer` call fails — the source
realises the spec's `SessionComplete` condition as the `IndexError`
raised by `quiz_questions[current_question]`, thrown before any
mutation — and leaves the entire session state unchanged; calling it
again fails identically (idempotent failure). -/
theorem answer_after_complete_fails_unchanged (s : QuizState) (sel : Int)
    (h : s.quiz_questions.length ≤ s.current_question) :
    submit_answer s sel = (s, some PyError.indexError) ∧
    submit_answer (submit_answer s sel).1 sel = (s, some PyError.indexError) := by
  have hn : s.quiz_questions[s.current_question]? = none :=
    List.getElem?_eq_none h
  unfold submit_answer
  simp [hn]

/-- C1 witness: the concrete completed one-question session. -/
theorem answer_after_complete_fails_unchanged_witness :
    completeState.quiz_questions.length ≤ completeState.current_question ∧
    (submit_answer completeState 0 = (completeState, some PyError.indexError) ∧
      submit_answer (submit_answer completeState 0).1 0
        = (completeState, some PyError.indexError)) :=
  ⟨by decide, answer_after_complete_fails_unchanged completeState 0 (by decide)⟩

/-- C2 counterexample: in the in-progress one-question session, the
out-of-range choice 5 (the question has 2 options) does NOT make
`submit_answer` fail — it succeeds (no error), advances the position and
appends a record, refuting the claim that `answer` fails with
`InvalidChoice` leaving position unchanged and appending nothing. -/
theorem invalid_choice_accepted_counterexample :
    ((5 : Int) < 0 ∨ (5 : Int) ≥ qEasy.options.length) ∧
    (submit_answer inProgressState 5).2 = none ∧
    (submit_answer inProgressState 5).1.current_question = 1 ∧
    (submit_answer inProgressState 5).1.answers.length = 1 := by
  decide

/-- C2 amended: `submit_answer` performs no validation of the selected
index. For an in-progress session and a selected index outside
`[0, len(options))` of the current question (whose `correct` index is in
range), the call succeeds: it records one incorrect answer, leaves the
score unchanged, and advances the position by 1. -/
theorem invalid_choice_amended (s : QuizState) (sel : Int) (q : Question)
    (hq : s.quiz_questions[s.current_question]? = some q)
    (hcor : 0 ≤ q.correct ∧ q.correct < q.options.length)
    (hout : sel < 0 ∨ (q.options.length : Int) ≤ sel) :
    submit_answer s sel =
      ({ s with
          answers := s.answers ++ [mkAnswerRecord q sel]
          current_question := s.current_question + 1 }, none)
    ∧ (mkAnswerRecord q sel).is_correct = false
    ∧ (submit_answer s sel).1.score = s.score := by
  have hne : sel ≠ q.correct := by omega
  have hic : (mkAnswerRecord q sel).is_correct = false := by
    simp [mkAnswerRecord, hne]
  unfold submit_answer
  rw [hq]
  refine ⟨?_, hic, ?_⟩ <;> simp [hic]

/-- C2 amended witness: the same concrete out-of-range submission. -/
theorem invalid_choice_amended_witness :
    inProgressState.quiz_questions[inProgressState.current_question]?
        = some qEasy
    ∧ (0 ≤ qEasy.correct ∧ qEasy.correct < qEasy.options.length)
    ∧ ((5 : Int) < 0 ∨ (qEasy.options.length : Int) ≤ 5)
    ∧ ((mkAnswerRecord qEasy 5).is_correct = false
        ∧ (submit_answer inProgressState 5).1.score = inProgressState.score) :=
  ⟨by decide, by decide, by decide,
    (invalid_choice_amended inProgressState 5 qEasy (by decide) (by decide)
      (by decide)).2⟩

/-- C3: for a session produced by a successful `start_quiz` and any list
of selections no longer than the drawn list, running `submit_answer` on
each selection succeeds throughout, and afterwards position = number of
calls = length of the answer log, the score equals the count of records
with `is_correct` true, the log is exactly one snapshot record per
(question, selection) pair in order, and every record's `is_correct`
equals the test `selected == correct` against the snapshot of the
question's correct index. -/
theorem session_invariants_after_answers (s s0 : QuizState) (d c : String)
    (draw : List Nat) (sels : List Int)
    (hstart : start_quiz s d c draw = (s0, true))
    (hk : sels.length ≤ s0.quiz_questions.length) :
    (runAnswers s0 sels).2 = none
    ∧ (runAnswers s0 sels).1.current_question = sels.length
    ∧ (runAnswers s0 sels).1.answers.length = sels.length
    ∧ (runAnswers s0 sels).1.score =
        List.countP (fun r => r.is_correct) (runAnswers s0 sels).1.answers
    ∧ (runAnswers s0 sels).1.answers = expectedLog s0.quiz_questions sels
    ∧ ∀ r ∈ (runAnswers s0 sels).1.answers,
        r.is_correct = (r.selected == r.correct) := by
  obtain ⟨hc0, hs0, ha0, -⟩ := start_quiz_success s s0 d c draw hstart
  have hrun := runAnswers_eq sels s0 (by omega)
  rw [hrun]
  have hlen : (expectedLog s0.quiz_questions sels).length = sels.length := by
    unfold expectedLog
    rw [List.length_map, List.length_zip]
    omega
  refine ⟨rfl, ?_, ?_, ?_, ?_, ?_⟩
  · simp [hc0]
  · simp [ha0, hc0, List.drop_zero, hlen]
  · simp [hs0, ha0, hc0]
  · simp [ha0, hc0]
  · intro r hr
    simp only [ha0, hc0, List.nil_append, List.drop_zero] at hr
    unfold expectedLog at hr
    obtain ⟨p, -, rfl⟩ := List.mem_map.mp hr
    rfl

/-- C3 witness: a two-question quiz answered twice. -/
theorem session_invariants_after_answers_witness :
    start_quiz w3start "mixed" "all" [0, 1]
      = ((start_quiz w3start "mixed" "all" [0, 1]).1, true)
    ∧ [(0 : Int), 1].length ≤
        (start_quiz w3start "mixed" "all" [0, 1]).1.quiz_questions.length
    ∧ (runAnswers (start_quiz w3start "mixed" "all" [0, 1]).1 [0, 1]).1.score
        = List.countP (fun r => r.is_correct)
            (runAnswers (start_quiz w3start "mixed" "all" [0, 1]).1 [0, 1]).1.answers := by
  refine ⟨by decide, by decide, ?_⟩
  exact (session_invariants_after_answers w3start _ "mixed" "all" [0, 1] [0, 1]
    (by decide) (by decide)).2.2.2.1

/-- C4 counterexample: a bank holding the same question record twice.
`random.sample` may pick both positions (a valid without-replacement
draw), and the drawn list then contains duplicate entries, refuting the
claim's "contains no duplicate entries" for banks with repeated
records. -/
theorem draw_duplicates_counterexample :
    ValidSample
      (filter_questions_by_difficulty
        (filter_questions_by_category dupState.all_questions "all") "mixed")
      (min 5 (filter_questions_by_difficulty
        (filter_questions_by_category dupState.all_questions "all") "mixed").length)
      [0, 1]
    ∧ (start_quiz dupState "mixed" "all" [0, 1]).2 = true
    ∧ ¬ ((start_quiz dupState "mixed" "all" [0, 1]).1.quiz_questions).Nodup := by
  decide

/-- C4 amended: for every successful `start_quiz` whose draw is a valid
`random.sample` choice of `min(5, len(available))` positions, the drawn
list has length exactly `min(5, countMatching)`, every drawn question
belongs to the filtered set, the drawn list has no duplicate entries
whenever the filtered set itself has none (the draw is duplicate-free at
the level of positions), and when at most 5 questions match the drawn
list is a permutation of the whole filtered set. -/
theorem draw_properties_amended (s s0 : QuizState) (d c : String)
    (draw : List Nat)
    (hstart : start_quiz s d c draw = (s0, true))
    (hdraw : ValidSample
      (filter_questions_by_difficulty
        (filter_questions_by_category s.all_questions c) d)
      (min 5 (filter_questions_by_difficulty
        (filter_questions_by_category s.all_questions c) d).length)
      draw) :
    s0.quiz_questions.length
        = min 5 (get_filtered_question_count s.all_questions d c)
    ∧ (∀ q ∈ s0.quiz_questions,
        q ∈ filter_questions_by_difficulty
          (filter_questions_by_category s.all_questions c) d)
    ∧ ((filter_questions_by_difficulty
          (filter_questions_by_category s.all_questions c) d).Nodup
        → s0.quiz_questions.Nodup)
    ∧ ((filter_questions_by_difficulty
          (filter_questions_by_category s.all_questions c) d).length ≤ 5
        → s0.quiz_questions.Perm
            (filter_questions_by_difficulty
              (filter_questions_by_category s.all_questions c) d)) := by
  obtain ⟨-, -, -, hqq⟩ := start_quiz_success s s0 d c draw hstart
  obtain ⟨hnd, hlen, hbound⟩ := hdraw
  refine ⟨?_, ?_, ?_, ?_⟩
  · rw [hqq, sampleAt_length _ _ hbound, hlen, get_filtered_question_count_eq]
  · intro q hq
    rw [hqq] at hq
    exact sampleAt_mem _ _ q hq
  · intro hpop
    rw [hqq]
    exact sampleAt_nodup _ _ hnd hpop
  · intro h5
    rw [hqq]
    exact sampleAt_perm_of_full _ _ hnd (by omega) hbound

/-- C4 amended witness: the two-question bank drawn in full. -/
theorem draw_properties_amended_witness :
    (start_quiz w4state "mixed" "all" [1, 0]
        = ((start_quiz w4state "mixed" "all" [1, 0]).1, true))
    ∧ ValidSample
        (filter_questions_by_difficulty
          (filter_questions_by_category w4state.all_questions "all") "mixed")
        (min 5 (filter_questions_by_difficulty
          (filter_questions_by_category w4state.all_questions "all") "mixed").length)
        [1, 0]
    ∧ (start_quiz w4state "mixed" "all" [1, 0]).1.quiz_questions.length
        = min 5 (get_filtered_question_count w4state.all_questions "mixed" "all") := by
  refine ⟨by decide, by decide, ?_⟩
  exact (draw_properties_amended w4state _ "mixed" "all" [1, 0]
    (by decide) (by decide)).1

/-- C5: `countMatching` equals the length of applying the category
filter after the difficulty filter, and also of applying them in the
opposite order — the two filters are independent predicates over
disjoint fields, so they commute. -/
theorem filter_count_commutes (all_questions : List Question)
    (difficulty category : String) :
    get_filtered_question_count all_questions difficulty category
      = (filter_questions_by_category
          (filter_questions_by_difficulty all_questions difficulty) category).length
    ∧ get_filtered_question_count all_questions difficulty category
      = (filter_questions_by_difficulty
          (filter_questions_by_category all_questions category) difficulty).length :=
  ⟨get_filtered_question_count_eq_swap all_questions difficulty category,
    get_filtered_question_count_eq all_questions difficulty category⟩

/-- C6: `calculate_difficulty_score` returns `(earned, possible)` where
each answer weighs `difficulty_weights.get(lower(difficulty), 2)` of its
question — 1 easy, 2 medium, 3 hard, default 2 for a missing difficulty
(`.get` default "medium") or an unrecognized one (dict default 2),
case-insensitively — with `earned` summing weights over correct answers
and `possible` over all answers. -/
theorem weighted_score_correct (quiz_questions : List Question)
    (answers : List AnswerRecord)
    (h : answers.length ≤ quiz_questions.length) :
    calculate_difficulty_score quiz_questions answers =
      some ((((quiz_questions.zip answers).filter
            fun pa => pa.2.is_correct).map fun pa => questionWeight pa.1).sum,
        ((quiz_questions.zip answers).map fun pa => questionWeight pa.1).sum) := by
  unfold calculate_difficulty_score
  rw [calcScoreGo_eq quiz_questions answers 0 0 0 (by omega)]
  simp

/-- C6 witness: one correct easy answer and one incorrect hard answer
yield earned = 1, possible = 1 + 3 = 4. -/
theorem weighted_score_correct_witness :
    w6answers.length ≤ w6questions.length ∧
    calculate_difficulty_score w6questions w6answers = some (1, 4) := by
  refine ⟨by decide, ?_⟩
  rw [weighted_score_correct w6questions w6answers (by decide)]
  decide

/-- C7 counterexample: answering a question with NO difficulty key
stores the snapshot difficulty "medium" in the record, and the
per-difficulty breakdown then counts it under `medium` — the missing
case is normalized to medium and included, not excluded as the claim
states. -/
theorem breakdown_missing_difficulty_counterexample :
    qNoDiff.difficulty = none
    ∧ (submit_answer c7state 0).2 = none
    ∧ List.lookup "medium"
        (difficulty_breakdown (submit_answer c7state 0).1.answers) = some (1, 1) := by
  decide

/-- C7 amended: the breakdown dict maps exactly the three canonical keys
easy, medium, hard; each key k holds (count of correct answers whose
lowercased record difficulty is k, count of all answers whose lowercased
record difficulty is k) — so an entry with an unrecognized difficulty is
excluded from every key; but a question with a MISSING difficulty is
snapshotted as "medium" by `submit_answer` and therefore counted under
`medium`. -/
theorem breakdown_amended (ans : List AnswerRecord) :
    (difficulty_breakdown ans).map Prod.fst = ["easy", "medium", "hard"]
    ∧ List.lookup "easy" (difficulty_breakdown ans)
        = some
          (List.countP (fun a => a.is_correct && (pyLower a.difficulty == "easy")) ans,
           List.countP (fun a => pyLower a.difficulty == "easy") ans)
    ∧ List.lookup "medium" (difficulty_breakdown ans)
        = some
          (List.countP (fun a => a.is_correct && (pyLower a.difficulty == "medium")) ans,
           List.countP (fun a => pyLower a.difficulty == "medium") ans)
    ∧ List.lookup "hard" (difficulty_breakdown ans)
        = some
          (List.countP (fun a => a.is_correct && (pyLower a.difficulty == "hard")) ans,
           List.countP (fun a => pyLower a.difficulty == "hard") ans)
    ∧ ∀ (t : String) (o : List String) (cor : Int) (e : String)
        (cat : Option String) (sel : Int),
        (mkAnswerRecord ⟨t, o, cor, e, none, cat⟩ sel).difficulty = "medium" := by
  refine ⟨breakdown_keys_general ans _, ?_, ?_, ?_, fun t o cor e cat sel => rfl⟩
  · unfold difficulty_breakdown
    rw [breakdown_lookup_general,
      (by decide : List.lookup "easy"
        [("easy", ((0 : Nat), (0 : Nat))), ("medium", (0, 0)), ("hard", (0, 0))]
        = some (0, 0))]
    simp
  · unfold difficulty_breakdown
    rw [breakdown_lookup_general,
      (by decide : List.lookup "medium"
        [("easy", ((0 : Nat), (0 : Nat))), ("medium", (0, 0)), ("hard", (0, 0))]
        = some (0, 0))]
    simp
  · unfold difficulty_breakdown
    rw [breakdown_lookup_general,
      (by decide : List.lookup "hard"
        [("easy", ((0 : Nat), (0 : Nat))), ("medium", (0, 0)), ("hard", (0, 0))]
        = some (0, 0))]
    simp

/-- C8: a failed `start_quiz` — empty bank, or no question matching the
filters — mutates nothing: it returns `False` with the prior session
state (drawn questions, position, score, answer log, recorded filters)
exactly as it was. -/
theorem failed_start_preserves_state (s : QuizState) (d c : String)
    (draw : List Nat)
    (h : s.all_questions = [] ∨
      filter_questions_by_difficulty
        (filter_questions_by_category s.all_questions c) d = []) :
    start_quiz s d c draw = (s, false) := by
  unfold start_quiz
  rcases h with h | h
  · simp [h]
  · by_cases he : s.all_questions.isEmpty <;> simp [he, h]

/-- C8 witness: starting on an empty bank fails and preserves the state. -/
theorem failed_start_preserves_state_witness :
    (baseState.all_questions = [] ∨
      filter_questions_by_difficulty
        (filter_questions_by_category baseState.all_questions "history") "easy" = [])
    ∧ start_quiz baseState "easy" "history" [] = (baseState, false) :=
  ⟨Or.inl rfl,
    failed_start_preserves_state baseState "easy" "history" [] (Or.inl rfl)⟩

/-- C9 counterexample: a parsable document that lacks the top-level
`questions` key makes `load_questions_from_json` return the empty bank
with NO surfaced error (`data.get('questions', [])` hits its default and
no `st.error` runs), refuting the claim that this case surfaces an
error. -/
theorem load_missing_key_counterexample :
    load_questions_from_json (LoadSource.parsed none) = ([], none) := rfl

/-- C9 amended: a missing file or an unparsable document (or any other
load exception) yields an empty bank plus a surfaced error; a parsed
document lacking the `questions` key yields an empty bank silently; a
well-formed document yields exactly the sequence stored under
`questions`, with no error. -/
theorem load_amended (qs : List Question) :
    load_questions_from_json LoadSource.missingFile
        = ([], some LoadError.notFound)
    ∧ load_questions_from_json LoadSource.unparsable
        = ([], some LoadError.parseError)
    ∧ load_questions_from_json LoadSource.otherFailure
        = ([], some LoadError.unknown)
    ∧ load_questions_from_json (LoadSource.parsed none) = ([], none)
    ∧ load_questions_from_json (LoadSource.parsed (some qs)) = (qs, none) :=
  ⟨rfl, rfl, rfl, rfl, rfl⟩

/-- C10: a question with no category field makes the category listing
include "Unknown" (the listing defaults missing categories to
"Unknown"), yet the category filter — which defaults a missing category
to the empty string, never equal to "unknown" case-insensitively —
excludes that question when filtering by "Unknown", and the filtered
count counts exactly the members of that filter result, which the
question is not among. -/
theorem unknown_category_mismatch (bank : List Question) (q : Question)
    (hq : q ∈ bank) (hc : q.category = none) :
    "Unknown" ∈ get_available_categories bank
    ∧ q ∉ filter_questions_by_category bank "Unknown"
    ∧ get_filtered_question_count bank "mixed" "Unknown"
        = (filter_questions_by_category bank "Unknown").length := by
  refine ⟨?_, ?_, ?_⟩
  · unfold get_available_categories
    rw [List.mem_dedup, List.mem_filter]
    exact ⟨List.mem_map.mpr ⟨q, hq, by rw [hc]; rfl⟩, by decide⟩
  · unfold filter_questions_by_category
    simp only [show (("Unknown" == "all") = false) by decide, Bool.false_eq_true,
      if_false, List.mem_filter, hc]
    intro hmem
    exact absurd hmem.2 (by decide)
  · unfold get_filtered_question_count filter_questions_by_category
    simp

/-- C10 witness: the key-less question in a one-question bank. -/
theorem unknown_category_mismatch_witness :
    qNoDiff ∈ [qNoDiff] ∧ qNoDiff.category = none ∧
    ("Unknown" ∈ get_available_categories [qNoDiff]
      ∧ qNoDiff ∉ filter_questions_by_category [qNoDiff] "Unknown") :=
  ⟨List.mem_singleton.mpr rfl, rfl,
    And.intro
      (unknown_category_mismatch [qNoDiff] qNoDiff
        (List.mem_singleton.mpr rfl) rfl).1
      (unknown_category_mismatch [qNoDiff] qNoDiff
        (List.mem_singleton.mpr rfl) rfl).2.1⟩

end NascQuiz
